import Mathlib

/-!
Verification of the bingobot goal-lookup service.

Shallow embedding of the two JavaScript source files of the repository:
`src/index.js` (a minimal variant with a single `/goal` route) and
`src/unnamed/part_000` (the full service).  JavaScript objects used as
string-keyed dictionaries are modelled as ordered association lists with
JavaScript's insertion semantics: assigning to an existing key overwrites
the value in place (keeping the key's position), assigning to a fresh key
appends it, and `Object.entries` / `Object.values` iterate in that order.
JavaScript strings are modelled by Lean `String`; so that every definition
reduces inside the kernel, `trim`, `toLowerCase`, `includes`, `split(' ')`
and `substring(0, n)` are modelled directly on the underlying character
list (`jsTrim`, `jsToLower`, `jsIncludes`, `splitOnSpace`, `jsTake`), with
character classes scoped to the data the service handles (ASCII case
mapping, the usual whitespace characters).  CSV rows delivered by the
`csv-parser` stream are modelled as records of the five columns the code
reads; a missing column and an empty string are identified (the code only
ever tests these fields for truthiness, where both coincide).  Request
handlers become pure functions from their inputs (query parameters, the
fetched rows or a fetch failure, and for the random route the drawn index)
to a response value; the `try`/`catch` wrapping of each handler body is
modelled with `Except`.  The string constants of `src/unnamed/part_000`
are reproduced verbatim, including its mojibake emoji code points.
-/

set_option autoImplicit false

namespace Bingobot

/-- `s.trim()`: strip leading and trailing whitespace. -/
def jsTrim (s : String) : String :=
  ⟨((s.data.dropWhile Char.isWhitespace).reverse.dropWhile
      Char.isWhitespace).reverse⟩

/-- `s.toLowerCase()` (ASCII case mapping, character by character). -/
def jsToLower (s : String) : String :=
  ⟨s.data.map Char.toLower⟩

/-- `s.substring(0, n)`: the first `n` characters (all of `s` if shorter). -/
def jsTake (s : String) (n : Nat) : String :=
  ⟨s.data.take n⟩

/-- `sub` occurs contiguously inside `l` (at some position). -/
def occursIn (sub : List Char) : List Char → Bool
  | [] => sub.isPrefixOf []
  | c :: rest => sub.isPrefixOf (c :: rest) || occursIn sub rest

/-- `s.includes(sub)`: `sub` occurs contiguously inside `s`. -/
def jsIncludes (s : String) (sub : String) : Bool :=
  occursIn sub.data s.data

/-- `s.split(' ')`: cut at every single space character; adjacent spaces
produce empty fragments and the empty string yields `[""]`. -/
def splitOnSpace : List Char → List (List Char)
  | [] => [[]]
  | c :: rest =>
      let r := splitOnSpace rest
      if c = ' ' then [] :: r
      else
        match r with
        | [] => [[c]]
        | w :: ws => (c :: w) :: ws

/-- A parsed CSV row as the `data` callback of `loadGoals` sees it: the five
columns the code reads.  `""` stands for an absent or empty cell (the code
only ever tests these fields for truthiness, where both coincide). -/
structure Row where
  Name : String
  Description : String
  levels : String
  Difficulty : String
  videoLink : String
deriving DecidableEq, Repr

/-- The goal record built by `loadGoals` in `src/unnamed/part_000`. -/
structure GoalRecord where
  name : String
  description : String
  levels : String
  difficulty : String
  videoLink : String
deriving DecidableEq, Repr

/-- A JavaScript object used as a string-keyed map: an ordered association
list.  Insertion order is the iteration order of `Object.entries`. -/
abbrev JsObj (α : Type) := List (String × α)

/-- Property assignment `obj[k] = v`: overwrite in place if the key exists,
append otherwise (JavaScript insertion-order semantics for string keys). -/
def objInsert {α : Type} (m : JsObj α) (k : String) (v : α) : JsObj α :=
  match m with
  | [] => [(k, v)]
  | (k', v') :: rest =>
      if k' = k then (k', v) :: rest else (k', v') :: objInsert rest k v

/-- Property read `obj[k]`: the value stored under `k`, if any. -/
def objLookup {α : Type} (m : JsObj α) (k : String) : Option α :=
  match m with
  | [] => none
  | (k', v) :: rest => if k' = k then some v else objLookup rest k

/-- `Object.values obj`. -/
def objValues {α : Type} (m : JsObj α) : List α :=
  m.map Prod.snd

/-- The row filter of both loaders: `row.Name && row.Description` — both
fields truthy, i.e. non-empty. -/
def validRow (row : Row) : Bool :=
  row.Name != "" && row.Description != ""

/-- The key a valid row is stored under: `row.Name.trim().toLowerCase()`. -/
def keyOf (row : Row) : String :=
  jsToLower (jsTrim row.Name)

/-- The record `loadGoals` of `src/unnamed/part_000` builds from a valid row:
each optional column is trimmed when truthy and `""` otherwise. -/
def buildRecord (row : Row) : GoalRecord :=
  { name := jsTrim row.Name
    description := jsTrim row.Description
    levels := if row.levels != "" then jsTrim row.levels else ""
    difficulty := if row.Difficulty != "" then jsTrim row.Difficulty else ""
    videoLink := if row.videoLink != "" then jsTrim row.videoLink else "" }

/-- The mapping under construction after processing a prefix of the row
stream: the fold body of `loadGoals` (`src/unnamed/part_000`), one `data`
event per row in stream order. -/
def loadGoalsFrom (goals : JsObj GoalRecord) : List Row → JsObj GoalRecord
  | [] => goals
  | row :: rest =>
      loadGoalsFrom
        (if validRow row then objInsert goals (keyOf row) (buildRecord row)
         else goals)
        rest

/-- `loadGoals` of `src/unnamed/part_000`, applied to the parsed row stream:
starts from the empty object `{}` and processes every row. -/
def loadGoals (rows : List Row) : JsObj GoalRecord :=
  loadGoalsFrom [] rows

/-- The mapping under construction in `loadGoals` of `src/index.js`, which
stores only the trimmed description string under the same key. -/
def loadGoalsIndexFrom (goals : JsObj String) : List Row → JsObj String
  | [] => goals
  | row :: rest =>
      loadGoalsIndexFrom
        (if validRow row then
          objInsert goals (keyOf row) (jsTrim row.Description)
         else goals)
        rest

/-- `loadGoals` of `src/index.js`. -/
def loadGoalsIndex (rows : List Row) : JsObj String :=
  loadGoalsIndexFrom [] rows

/-- The fuzzy-match test of `searchGoals`: the key contains the lowercased
query as a substring, or every `' '`-separated token of it is a substring
of the key. -/
def fuzzyMatch (key : String) (queryLower : String) : Bool :=
  jsIncludes key queryLower ||
    (splitOnSpace queryLower.data).all (fun word => occursIn word key.data)

/-- `searchGoals(goals, query)` of `src/unnamed/part_000`: lowercase the
query; on an exact key hit return that single record; otherwise collect, in
iteration order, the records of all keys passing the fuzzy-match test. -/
def searchGoals (goals : JsObj GoalRecord) (query : String) : List GoalRecord :=
  let queryLower := jsToLower query
  match objLookup goals queryLower with
  | some goal => [goal]
  | none =>
      goals.filterMap (fun entry =>
        if fuzzyMatch entry.1 queryLower then some entry.2 else none)

/-- `formatGoal(goal)` of `src/unnamed/part_000` with `includeAll = true`:
name and description, then one line per non-empty optional field (the
source's literal prefixes, mojibake code points included). -/
def formatGoal (goal : GoalRecord) : String :=
  let response := "**" ++ goal.name ++ "**: " ++ goal.description
  let response :=
    if goal.levels != "" then
      response ++ "\nðŸ“ **Level(s):** " ++ goal.levels
    else response
  let response :=
    if goal.difficulty != "" then
      response ++ "\nâ­ **Difficulty:** " ++ goal.difficulty
    else response
  let response :=
    if goal.videoLink != "" then
      response ++ "\nðŸŽ¥ **Video:** " ++ goal.videoLink
    else response
  response

/-- A JavaScript runtime exception.  Reading a property of `undefined`
raises a `TypeError`. -/
inductive JsError where
  | typeError
deriving DecidableEq, Repr

/-- Calling `formatGoal` on a possibly-`undefined` argument (as the
`/goal/random` handler does): on `undefined` the first property access
`goal.name` throws a `TypeError`; otherwise the call returns normally. -/
def formatGoalDyn (goal : Option GoalRecord) : Except JsError String :=
  match goal with
  | none => Except.error JsError.typeError
  | some g => Except.ok (formatGoal g)

/-- Failure of the remote CSV fetch (or of parsing its body): the rejected
promise that lands a handler in its `catch` block. -/
inductive FetchError where
  | fetchFailed
deriving DecidableEq, Repr

/-- An HTTP response as written by a handler: status code and body text. -/
structure Response where
  status : Nat
  body : String
deriving DecidableEq, Repr

/-- The `/goal` route handler of `src/unnamed/part_000`.  `nameQuery` is
`req.query.name` (`none` when the parameter is absent); `fetched` is the
outcome of `loadGoals`'s fetch: the parsed rows, or the error that lands in
the `catch` block.  The blank-query check precedes the `try` block, so a
blank query is answered 400 before any fetch happens. -/
def goalHandler (nameQuery : Option String)
    (fetched : Except FetchError (List Row)) : Response :=
  let query := jsTrim (nameQuery.getD "")
  if query = "" then
    { status := 400, body := "Please provide a goal name (?name=...)" }
  else
    match fetched with
    | Except.error _ =>
        { status := 500, body := "Error fetching goals from Google Sheets." }
    | Except.ok rows =>
        let goals := loadGoals rows
        match searchGoals goals query with
        | [] =>
            { status := 404
              body := "Goal \"" ++ nameQuery.getD "" ++
                "\" not found. Check spelling or try another goal." }
        | [g] => { status := 200, body := formatGoal g }
        | ms =>
            { status := 200
              body := "Multiple goals found: " ++
                ", ".intercalate ((ms.take 5).map GoalRecord.name) ++
                ". Please be more specific!" }

/-- One element of the `goals` array in the `/goals` JSON response: the
object the handler builds from a loaded record (description truncated to
100 characters with `"..."` appended; `hasVideo` is `!!goal.videoLink`). -/
structure GoalEntry where
  name : String
  description : String
  levels : String
  difficulty : String
  hasVideo : Bool
deriving DecidableEq, Repr

/-- The per-record mapping inside the `/goals` handler. -/
def goalEntryOf (goal : GoalRecord) : GoalEntry :=
  { name := goal.name
    description := jsTake goal.description 100 ++ "..."
    levels := goal.levels
    difficulty := goal.difficulty
    hasVideo := goal.videoLink != "" }

/-- The JSON body of a successful `/goals` response. -/
structure GoalsResponse where
  totalGoals : Nat
  goals : List GoalEntry
deriving DecidableEq, Repr

/-- The success path of the `/goals` route handler of `src/unnamed/part_000`
(the `catch` arm answers 500 and builds no body of this shape): map
`Object.values` of the loaded mapping through `goalEntryOf` and report the
resulting array with its length. -/
def goalsHandler (rows : List Row) : GoalsResponse :=
  let goals := loadGoals rows
  let goalList := (objValues goals).map goalEntryOf
  { totalGoals := goalList.length, goals := goalList }

/-- The record filter of the `/goals/difficulty/:level` route handler:
`Object.values(goals).filter(goal => goal.difficulty.includes(level))`. -/
def difficultyFilter (goals : JsObj GoalRecord) (level : String) :
    List GoalRecord :=
  (objValues goals).filter (fun goal => jsIncludes goal.difficulty level)

/-- The `/goal/random` route handler of `src/unnamed/part_000`.  `randIdx`
models `Math.floor(Math.random() * goalArray.length)`; when the array is
empty the index reads `undefined`, so the subsequent `formatGoal` call
throws and the `catch` block answers 500. -/
def randomGoalHandler (rows : List Row) (randIdx : Nat) : Response :=
  let goals := loadGoals rows
  let goalArray := objValues goals
  let randomGoal := goalArray.get? randIdx
  match formatGoalDyn randomGoal with
  | Except.ok formatted => { status := 200, body := formatted }
  | Except.error _ => { status := 500, body := "Error fetching goals." }

/-! ## Concrete data for witnesses -/

/-- A demo row whose name carries surrounding blanks and mixed case. -/
def rowJano : Row :=
  { Name := " Jano ", Description := "Skip the Jano encounter", levels := ""
    Difficulty := "★★", videoLink := "" }

/-- A demo row whose key strictly contains the key of `rowJano`. -/
def rowJanoSkipGlitch : Row :=
  { Name := "Jano Skip Glitch", Description := "Clip through the door"
    levels := "The Cave of Bad Dreams", Difficulty := "★★★"
    videoLink := "https://example.com/v" }

/-- A demo row with an empty description, rejected by both loaders. -/
def rowNoDescription : Row :=
  { Name := "Ghost", Description := "", levels := "", Difficulty := ""
    videoLink := "" }

/-- A duplicate of `rowJano`'s name in different case, with another
description: keyed identically, so it overwrites. -/
def rowJanoDup : Row :=
  { Name := "JANO", Description := "Updated description", levels := ""
    Difficulty := "★", videoLink := "" }

/-- Specification-side device: the last row of `rows` that is valid and
keyed by `k`, if any.  Used to characterise what the overwrite fold of the
loaders leaves under each key. -/
def lastMatch (k : String) : List Row → Option Row
  | [] => none
  | row :: rest =>
      match lastMatch k rest with
      | some r' => some r'
      | none => if validRow row ∧ keyOf row = k then some row else none

/-! ## Helper lemmas -/

theorem objLookup_objInsert_self {α : Type} (m : JsObj α) (k : String)
    (v : α) : objLookup (objInsert m k v) k = some v := by
  induction m with
  | nil => simp [objInsert, objLookup]
  | cons p rest ih =>
    obtain ⟨k', v'⟩ := p
    by_cases h : k' = k <;> simp [objInsert, objLookup, h, ih]

theorem objLookup_objInsert_ne {α : Type} (m : JsObj α) (k k' : String)
    (v : α) (h : k ≠ k') :
    objLookup (objInsert m k v) k' = objLookup m k' := by
  induction m with
  | nil => simp [objInsert, objLookup, h]
  | cons p rest ih =>
    obtain ⟨k₀, v₀⟩ := p
    by_cases h₀ : k₀ = k
    · subst h₀; simp [objInsert, objLookup, h, ih]
    · simp [objInsert, objLookup, h₀, ih]

theorem objLookup_loadGoalsFrom (rows : List Row) (m : JsObj GoalRecord)
    (k : String) :
    objLookup (loadGoalsFrom m rows) k =
      match lastMatch k rows with
      | some r => some (buildRecord r)
      | none => objLookup m k := by
  induction rows generalizing m with
  | nil => rfl
  | cons row rest ih =>
    simp only [loadGoalsFrom, lastMatch, ih]
    cases hrest : lastMatch k rest with
    | some r' => rfl
    | none =>
      by_cases hv : validRow row
      · by_cases hk : keyOf row = k
        · subst hk
          simp [hv, objLookup_objInsert_self]
        · simp [hv, hk, objLookup_objInsert_ne _ _ _ _ hk]
      · simp [hv]

theorem objLookup_loadGoals (rows : List Row) (k : String) :
    objLookup (loadGoals rows) k = (lastMatch k rows).map buildRecord := by
  rw [loadGoals, objLookup_loadGoalsFrom]
  cases lastMatch k rows <;> rfl

theorem lastMatch_mem (rows : List Row) (k : String) (r : Row)
    (h : lastMatch k rows = some r) :
    r ∈ rows ∧ validRow r = true ∧ keyOf r = k := by
  induction rows with
  | nil => cases h
  | cons row rest ih =>
    simp only [lastMatch] at h
    cases hrest : lastMatch k rest with
    | some r' =>
      rw [hrest] at h
      obtain rfl : r' = r := by cases h; rfl
      obtain ⟨hm, hv, hk⟩ := ih hrest
      exact ⟨List.mem_cons_of_mem _ hm, hv, hk⟩
    | none =>
      rw [hrest] at h
      by_cases hc : validRow row ∧ keyOf row = k
      · rw [if_pos hc] at h
        obtain rfl : row = r := by cases h; rfl
        exact ⟨List.mem_cons_self _ _, hc.1, hc.2⟩
      · rw [if_neg hc] at h; cases h

theorem lastMatch_ne_none (rows : List Row) (k : String) (r : Row)
    (hmem : r ∈ rows) (hv : validRow r = true) (hk : keyOf r = k) :
    lastMatch k rows ≠ none := by
  induction rows with
  | nil => cases hmem
  | cons row rest ih =>
    simp only [lastMatch]
    cases h : lastMatch k rest with
    | some r' => simp
    | none =>
      rcases List.mem_cons.mp hmem with rfl | hmem'
      · simp [hv, hk]
      · exact absurd h (ih hmem')

theorem lastMatch_append (l₁ l₂ : List Row) (k : String) :
    lastMatch k (l₁ ++ l₂) =
      match lastMatch k l₂ with
      | some r => some r
      | none => lastMatch k l₁ := by
  induction l₁ with
  | nil =>
    simp only [List.nil_append]
    cases lastMatch k l₂ <;> simp [lastMatch]
  | cons row rest ih =>
    simp only [List.cons_append, lastMatch, List.append_eq, ih]
    cases lastMatch k l₂ <;> cases lastMatch k rest <;> rfl

theorem filterMap_if_eq_filter_map {α β : Type} (p : α → Bool) (f : α → β)
    (l : List α) :
    l.filterMap (fun a => if p a then some (f a) else none) =
      (l.filter p).map f := by
  induction l with
  | nil => rfl
  | cons a l ih =>
    by_cases h : p a <;>
      simp [List.filterMap_cons, List.filter_cons, h, ih]

theorem loadGoalsFrom_filter_valid (rows : List Row) (m : JsObj GoalRecord) :
    loadGoalsFrom m rows = loadGoalsFrom m (rows.filter validRow) := by
  induction rows generalizing m with
  | nil => rfl
  | cons row rest ih =>
    by_cases h : validRow row <;>
      simp [loadGoalsFrom, List.filter_cons, h, ih]

theorem objInsert_keys_congr {α β : Type} (m₁ : JsObj α) (m₂ : JsObj β)
    (k : String) (v₁ : α) (v₂ : β)
    (h : m₁.map Prod.fst = m₂.map Prod.fst) :
    (objInsert m₁ k v₁).map Prod.fst = (objInsert m₂ k v₂).map Prod.fst := by
  induction m₁ generalizing m₂ with
  | nil =>
    have : m₂ = [] := by
      cases m₂ with
      | nil => rfl
      | cons p t => simp at h
    subst this; rfl
  | cons p t₁ ih =>
    obtain ⟨k₁, w₁⟩ := p
    cases m₂ with
    | nil => simp at h
    | cons q t₂ =>
      obtain ⟨k₂, w₂⟩ := q
      simp only [List.map_cons, List.cons.injEq] at h
      obtain ⟨rfl, ht⟩ := h
      by_cases hk : k₁ = k
      · simp [objInsert, hk, ht]
      · simp [objInsert, hk, ih t₂ ht]

theorem loaders_keys_aux (rows : List Row) (m₁ : JsObj String)
    (m₂ : JsObj GoalRecord) (h : m₁.map Prod.fst = m₂.map Prod.fst) :
    (loadGoalsIndexFrom m₁ rows).map Prod.fst =
      (loadGoalsFrom m₂ rows).map Prod.fst := by
  induction rows generalizing m₁ m₂ with
  | nil => simpa using h
  | cons row rest ih =>
    simp only [loadGoalsIndexFrom, loadGoalsFrom]
    by_cases hv : validRow row
    · simp only [hv, if_true]
      exact ih _ _ (objInsert_keys_congr _ _ _ _ _ h)
    · simp only [hv]
      exact ih _ _ h

/-! ## Claim theorems -/

/-- C1: For every goals mapping and every query string that, after
case-insensitive normalisation and trimming, equals an existing key of the
mapping, `searchGoals` (applied, as its caller does, to the trimmed query)
returns a sequence of exactly one record, and that record is the one stored
under that key — regardless of how many other keys contain the query as a
substring, since the exact hit short-circuits the fuzzy scan. -/
theorem searchGoals_exact_hit (goals : JsObj GoalRecord) (query : String)
    (g : GoalRecord)
    (h : objLookup goals (jsToLower (jsTrim query)) = some g) :
    searchGoals goals (jsTrim query) = [g] := by
  simp [searchGoals, h]

/-- Witness for claim C1: the query `" Jano "` trims and lowercases to the
key `"jano"`, which is also a proper substring of the other key
`"jano skip glitch"`; the exact match alone is returned. -/
theorem searchGoals_exact_hit_witness :
    searchGoals (loadGoals [rowJano, rowJanoSkipGlitch]) (jsTrim " Jano ") =
      [buildRecord rowJano] :=
  searchGoals_exact_hit (loadGoals [rowJano, rowJanoSkipGlitch]) " Jano "
    (buildRecord rowJano) (by decide)

/-- C2: For every goals mapping and every query whose lowercase form
equals no key, `searchGoals` returns exactly the records of those keys that
either contain the lowercased query as a substring or of which every
space-separated token of the query is a substring, in the mapping's
iteration (insertion) order; in particular the query `"jano skip"` matches
the key `"jano skip glitch"`, and a query matching no key by either rule
yields the empty sequence. -/
theorem searchGoals_fuzzy_spec :
    (∀ (goals : JsObj GoalRecord) (query : String),
        objLookup goals (jsToLower query) = none →
        searchGoals goals query =
          ((goals.filter fun entry =>
              fuzzyMatch entry.1 (jsToLower query)).map Prod.snd))
    ∧ searchGoals (loadGoals [rowJanoSkipGlitch]) "jano skip" =
        [buildRecord rowJanoSkipGlitch]
    ∧ searchGoals (loadGoals [rowJanoSkipGlitch]) "raygun" = [] := by
  refine ⟨?_, by decide, by decide⟩
  intro goals query h
  simp [searchGoals, h, filterMap_if_eq_filter_map]

/-- Witness for claim C2: the query `"skip glitch"` is no key of the demo
mapping, and the fuzzy scan returns exactly the filtered records. -/
theorem searchGoals_fuzzy_spec_witness :
    searchGoals (loadGoals [rowJano, rowJanoSkipGlitch]) "skip glitch" =
      (((loadGoals [rowJano, rowJanoSkipGlitch]).filter fun entry =>
          fuzzyMatch entry.1 (jsToLower "skip glitch")).map Prod.snd) :=
  searchGoals_fuzzy_spec.1 (loadGoals [rowJano, rowJanoSkipGlitch])
    "skip glitch" (by decide)

/-- C3: For every parsed CSV input, the mapping produced by `loadGoals`
contains a record under a key exactly when some row with a non-empty Name
and a non-empty Description produced that key, and every stored record was
built from such a valid row; rows with an empty Name or an empty
Description contribute no record. -/
theorem loadGoals_record_iff (rows : List Row) :
    (∀ k g, objLookup (loadGoals rows) k = some g →
        ∃ r, r ∈ rows ∧ validRow r = true ∧ keyOf r = k ∧ g = buildRecord r)
    ∧ (∀ r, r ∈ rows → validRow r = true →
        ∃ g, objLookup (loadGoals rows) (keyOf r) = some g) := by
  constructor
  · intro k g h
    rw [objLookup_loadGoals] at h
    cases hl : lastMatch k rows with
    | none => rw [hl] at h; cases h
    | some r =>
      rw [hl] at h
      obtain rfl : buildRecord r = g := by cases h; rfl
      obtain ⟨hmem, hv, hk⟩ := lastMatch_mem rows k r hl
      exact ⟨r, hmem, hv, hk, rfl⟩
  · intro r hmem hv
    cases hl : lastMatch (keyOf r) rows with
    | none => exact absurd hl (lastMatch_ne_none rows (keyOf r) r hmem hv rfl)
    | some r' =>
      exact ⟨buildRecord r', by rw [objLookup_loadGoals, hl]; rfl⟩

/-- Witness for claim C3: in a two-row input whose second row lacks a
description, the valid row's key is mapped and the stored record traces
back to a valid source row. -/
theorem loadGoals_record_iff_witness :
    (∃ r, r ∈ [rowJano, rowNoDescription] ∧ validRow r = true ∧
        keyOf r = "jano" ∧ buildRecord rowJano = buildRecord r)
    ∧ ∃ g, objLookup (loadGoals [rowJano, rowNoDescription])
        (keyOf rowJano) = some g :=
  ⟨(loadGoals_record_iff [rowJano, rowNoDescription]).1 "jano"
      (buildRecord rowJano) (by decide),
    (loadGoals_record_iff [rowJano, rowNoDescription]).2 rowJano
      (by decide) (by decide)⟩

/-- C4: For every parsed CSV input containing two or more valid rows
whose names trim and lowercase to the same key, the mapping produced by
`loadGoals` holds, under that key, the record built from the last such row:
later rows overwrite earlier ones. -/
theorem loadGoals_last_wins (pre post : List Row) (r : Row)
    (hv : validRow r = true)
    (_hdup : ∃ r₀, r₀ ∈ pre ∧ validRow r₀ = true ∧ keyOf r₀ = keyOf r)
    (hlast : ∀ r₁, r₁ ∈ post → validRow r₁ = true → keyOf r₁ ≠ keyOf r) :
    objLookup (loadGoals (pre ++ r :: post)) (keyOf r) =
      some (buildRecord r) := by
  rw [objLookup_loadGoals, lastMatch_append]
  have hpost : lastMatch (keyOf r) post = none := by
    cases h : lastMatch (keyOf r) post with
    | none => rfl
    | some r' =>
      obtain ⟨hmem, hv', hk'⟩ := lastMatch_mem post (keyOf r) r' h
      exact absurd hk' (hlast r' hmem hv')
  simp [lastMatch, hpost, hv]

/-- Witness for claim C4: `rowJanoDup`'s name `"JANO"` shares the key
`"jano"` with the earlier `rowJano`; the duplicate's record wins. -/
theorem loadGoals_last_wins_witness :
    objLookup (loadGoals ([rowJano] ++ rowJanoDup :: [rowJanoSkipGlitch]))
      (keyOf rowJanoDup) = some (buildRecord rowJanoDup) :=
  loadGoals_last_wins [rowJano] [rowJanoSkipGlitch] rowJanoDup (by decide)
    ⟨rowJano, by decide, by decide, by decide⟩
    (by decide)

/-- C5: For every goals mapping and every difficulty token, the
difficulty filter returns exactly those records whose difficulty field
contains the token as a substring (containment, not equality); in
particular filtering by `"★"` keeps every record whose difficulty field is
`"★"`, `"★★"` or `"★★★"`. -/
theorem difficultyFilter_spec (goals : JsObj GoalRecord) (level : String) :
    (∀ g, g ∈ difficultyFilter goals level ↔
        g ∈ objValues goals ∧ jsIncludes g.difficulty level = true)
    ∧ (∀ g, g ∈ objValues goals →
        g.difficulty = "★" ∨ g.difficulty = "★★" ∨ g.difficulty = "★★★" →
        g ∈ difficultyFilter goals "★") := by
  constructor
  · intro g
    simp [difficultyFilter, List.mem_filter]
  · intro g hg hd
    have hsub : jsIncludes g.difficulty "★" = true := by
      rcases hd with h | h | h <;> rw [h] <;> decide
    simp [difficultyFilter, List.mem_filter, hg, hsub]

/-- Witness for claim C5: `rowJano`'s record has difficulty `"★★"` and is
kept by the `"★"` filter. -/
theorem difficultyFilter_spec_witness :
    buildRecord rowJano ∈ difficultyFilter (loadGoals [rowJano]) "★" :=
  (difficultyFilter_spec (loadGoals [rowJano]) "★").2 (buildRecord rowJano)
    (by decide) (by decide)

/-- C6: For every parsed CSV input, the `totalGoals` field of the
`/goals` response equals the number of records the loader produced, and
rows with an empty Name or an empty Description are excluded: the loader's
output (hence the count) is unchanged when those rows are dropped from the
input. -/
theorem goalsHandler_totalGoals (rows : List Row) :
    (goalsHandler rows).totalGoals = (loadGoals rows).length ∧
    loadGoals rows = loadGoals (rows.filter validRow) := by
  constructor
  · simp [goalsHandler, objValues]
  · rw [loadGoals, loadGoals, loadGoalsFrom_filter_valid]

/-- C7: For every loaded record, the corresponding entry of the
`/goals` JSON response has as its description the record's description
truncated to its first 100 characters with `"..."` appended, and its
`hasVideo` field is `true` exactly when the record's `videoLink` is
non-empty. -/
theorem goalsHandler_entry (rows : List Row) (i : Nat) (g : GoalRecord)
    (h : (objValues (loadGoals rows)).get? i = some g) :
    (goalsHandler rows).goals.get? i = some (goalEntryOf g) ∧
    (goalEntryOf g).description = jsTake g.description 100 ++ "..." ∧
    ((goalEntryOf g).hasVideo = true ↔ g.videoLink ≠ "") := by
  refine ⟨?_, rfl, ?_⟩
  · rw [List.get?_eq_getElem?] at h
    simp only [goalsHandler, List.get?_eq_getElem?, List.getElem?_map, h]
    rfl
  · simp [goalEntryOf]

/-- Witness for claim C7: the single record loaded from
`rowJanoSkipGlitch` (which has a video link) appears at position 0 of the
response with truncated description and `hasVideo = true`. -/
theorem goalsHandler_entry_witness :
    (goalsHandler [rowJanoSkipGlitch]).goals.get? 0 =
        some (goalEntryOf (buildRecord rowJanoSkipGlitch)) ∧
      (goalEntryOf (buildRecord rowJanoSkipGlitch)).description =
        jsTake (buildRecord rowJanoSkipGlitch).description 100 ++ "..." ∧
      ((goalEntryOf (buildRecord rowJanoSkipGlitch)).hasVideo = true ↔
        (buildRecord rowJanoSkipGlitch).videoLink ≠ "") :=
  goalsHandler_entry [rowJanoSkipGlitch] 0 (buildRecord rowJanoSkipGlitch)
    (by decide)

/-- C8: For every request to `/goal` whose `name` parameter is missing
or trims to the empty string, the handler responds with status 400, and it
does so before any fetch: the response is the same whatever the fetch would
have returned (so neither the loader nor `searchGoals` influences it), and
no other status is produced for that request. -/
theorem goalHandler_blank (nameQuery : Option String)
    (fetched₁ fetched₂ : Except FetchError (List Row))
    (h : jsTrim (nameQuery.getD "") = "") :
    goalHandler nameQuery fetched₁ = goalHandler nameQuery fetched₂ ∧
    (goalHandler nameQuery fetched₁).status = 400 := by
  constructor <;> simp [goalHandler, h]

/-- Witness for claim C8: the all-blank parameter `"   "` is answered 400,
identically on a successful and on a failed fetch. -/
theorem goalHandler_blank_witness :
    (goalHandler (some "   ") (Except.ok [rowJano]) =
        goalHandler (some "   ") (Except.error FetchError.fetchFailed)) ∧
      (goalHandler (some "   ") (Except.ok [rowJano])).status = 400 :=
  goalHandler_blank (some "   ") (Except.ok [rowJano])
    (Except.error FetchError.fetchFailed) (by decide)

/-- C9: When the loader produces a mapping with zero records, a request
to `/goal/random` does not crash: indexing the empty array yields
`undefined`, formatting it raises a `TypeError` that the handler's `catch`
absorbs, and the request receives the defined fallback response
(status 500, `"Error fetching goals."`). -/
theorem randomGoalHandler_empty (rows : List Row) (randIdx : Nat)
    (h : loadGoals rows = []) :
    formatGoalDyn ((objValues (loadGoals rows)).get? randIdx) =
        Except.error JsError.typeError ∧
      randomGoalHandler rows randIdx =
        { status := 500, body := "Error fetching goals." } := by
  constructor <;> simp [randomGoalHandler, formatGoalDyn, h, objValues]

/-- Witness for claim C9: a CSV whose only row lacks a description loads to
an empty mapping, and the random-goal request is answered by the 500
fallback instead of crashing. -/
theorem randomGoalHandler_empty_witness :
    formatGoalDyn ((objValues (loadGoals [rowNoDescription])).get? 0) =
        Except.error JsError.typeError ∧
      randomGoalHandler [rowNoDescription] 0 =
        { status := 500, body := "Error fetching goals." } :=
  randomGoalHandler_empty [rowNoDescription] 0 (by decide)

/-- C10: For the same parsed CSV input, the loader of `src/index.js`
and the loader of `src/unnamed/part_000` produce mappings with exactly the
same keys in the same order: both admit a row iff its Name and Description
are non-empty and key it by the trimmed, lowercased Name, so the two
versions agree on which goal names exist. -/
theorem loaders_agree_on_keys (rows : List Row) :
    (loadGoalsIndex rows).map Prod.fst = (loadGoals rows).map Prod.fst :=
  loaders_keys_aux rows [] [] rfl

end Bingobot
